import Mathlib

/-!
Verification of the mosaic augmentation pipeline and the EMA / gradient
accumulation hooks of `mmdet/models/detectors/yolov4.py`, via a shallow
embedding of the relevant code into Lean.

Conventions of the embedding:
* Python `int` values (shapes, iteration counters) are `ℕ` or `ℤ`
  (Python integers are arbitrary precision; subtraction results that can
  be negative in principle are kept in `ℤ`).
* Tensor scalar values are modelled exactly: pixel and box values as `ℚ`,
  EMA parameter values as `ℝ` (the momentum formula uses `exp`).
* numpy `uint8` casting is modelled as C-style truncation toward zero
  followed by reduction mod 256.
* Python exceptions are modelled by `Except String`; a function whose body
  contains no `raise`/`assert`/failing lookup always returns `Except.ok`.
-/

namespace MosaicPipeline

/-- One tile entering the mosaic composition: the output of the individual
pipeline for one sample.  `height`/`width` are `results['pad_shape'][:2]`,
`channels` is `pad_shape[2]`; `img` gives the pixel value at (row, col);
`bboxes` is the `gt_bboxes`-style array, each row a 4-vector
(x1, y1, x2, y2); `labels` is `gt_labels`. -/
structure Tile where
  height : ℕ
  width : ℕ
  channels : ℕ
  img : ℕ → ℕ → ℚ
  bboxes : List (Fin 4 → ℚ)
  labels : List ℤ

/-- `yc = max(shapes[0][0], shapes[1][0])`: decided by the height of the
top 2 images. -/
def yc (t0 t1 : Tile) : ℕ := max t0.height t1.height

/-- `xc = max(shapes[0][1], shapes[2][1])`: decided by the width of the
left 2 images. -/
def xc (t0 t2 : Tile) : ℕ := max t0.width t2.width

/-- `canvas_height = yc + max(shapes[2][0], shapes[3][0])`. -/
def canvasHeight (t0 t1 t2 t3 : Tile) : ℕ :=
  yc t0 t1 + max t2.height t3.height

/-- `canvas_width = xc + max(shapes[1][1], shapes[3][1])`. -/
def canvasWidth (t0 t1 t2 t3 : Tile) : ℕ :=
  xc t0 t2 + max t1.width t3.width

/-- `canvas_shape = (canvas_height, canvas_width, shapes[0][2])`. -/
def canvasShape (t0 t1 t2 t3 : Tile) : ℕ × ℕ × ℕ :=
  (canvasHeight t0 t1 t2 t3, canvasWidth t0 t1 t2 t3, t0.channels)

/-- The placement rectangle `(x1, y1, x2, y2)` of tile `i`, exactly the
four-way `if/elif` in `MosaicPipeline.__call__` (top-left, top-right,
bottom-left, bottom-right).  Kept in `ℤ` since Python computes these with
ordinary integer subtraction. -/
def tileRect (t0 t1 t2 t3 : Tile) : Fin 4 → ℤ × ℤ × ℤ × ℤ :=
  fun i =>
    let xcv : ℤ := xc t0 t2
    let ycv : ℤ := yc t0 t1
    match i with
    | 0 => (xcv - t0.width, ycv - t0.height, xcv, ycv)
    | 1 => (xcv, ycv - t1.height, xcv + t1.width, ycv)
    | 2 => (xcv - t2.width, ycv, xcv, ycv + t2.height)
    | 3 => (xcv, ycv, xcv + t3.width, ycv + t3.height)

/-- The placement origin `(x1, y1)` of tile `i`. -/
def origin (t0 t1 t2 t3 : Tile) (i : Fin 4) : ℤ × ℤ :=
  ((tileRect t0 t1 t2 t3 i).1, (tileRect t0 t1 t2 t3 i).2.1)

/-- `bboxes[:, 0::2] += x1; bboxes[:, 1::2] += y1`: even columns get the
x-offset, odd columns the y-offset. -/
def applyOffset (x1 y1 : ℤ) (b : Fin 4 → ℚ) : Fin 4 → ℚ :=
  fun j => b j + (if j.val % 2 = 0 then (x1 : ℚ) else (y1 : ℚ))

/-- The concatenated, offset bbox list of the output sample:
`np.concatenate([r[key] for r in mosaic_results], axis=0)` after each
tile's boxes were shifted by its placement origin. -/
def outputBboxes (t0 t1 t2 t3 : Tile) : List (Fin 4 → ℚ) :=
  let o := origin t0 t1 t2 t3
  t0.bboxes.map (applyOffset (o 0).1 (o 0).2)
    ++ t1.bboxes.map (applyOffset (o 1).1 (o 1).2)
    ++ t2.bboxes.map (applyOffset (o 2).1 (o 2).2)
    ++ t3.bboxes.map (applyOffset (o 3).1 (o 3).2)

/-- `np.concatenate([r['gt_labels'] for r in mosaic_results], axis=0)`. -/
def outputLabels (t0 t1 t2 t3 : Tile) : List ℤ :=
  t0.labels ++ t1.labels ++ t2.labels ++ t3.labels

/-- Truncation of a rational toward zero, the first step of a C cast of a
floating value to an integer type. -/
def truncToward0 (x : ℚ) : ℤ := if 0 ≤ x then ⌊x⌋ else ⌈x⌉

/-- The value a scalar takes on after assignment into a `np.uint8` array:
truncate toward zero, then reduce mod 256. -/
def toUint8 (x : ℚ) : ℕ := (truncToward0 x % 256).toNat

/-- Whether canvas coordinate `(y, x)` falls inside the placement
rectangle of tile `i`. -/
def inTile (t0 t1 t2 t3 : Tile) (i : Fin 4) (y x : ℕ) : Prop :=
  let r := tileRect t0 t1 t2 t3 i
  r.1 ≤ (x : ℤ) ∧ (x : ℤ) < r.2.2.1 ∧ r.2.1 ≤ (y : ℤ) ∧ (y : ℤ) < r.2.2.2

instance (t0 t1 t2 t3 : Tile) (i : Fin 4) (y x : ℕ) :
    Decidable (inTile t0 t1 t2 t3 i y x) := by
  unfold inTile; infer_instance

/-- The pixel of tile `i` that lands on canvas coordinate `(y, x)`:
`results[key][y - y1, x - x1]`. -/
def tilePixel (t0 t1 t2 t3 : Tile) (i : Fin 4) (y x : ℕ) : ℚ :=
  let t := match i with | 0 => t0 | 1 => t1 | 2 => t2 | 3 => t3
  let r := tileRect t0 t1 t2 t3 i
  t.img ((y : ℤ) - r.2.1).toNat ((x : ℤ) - r.1).toNat

/-- The value of the composed canvas at `(y, x)`.  The canvas is allocated
with `np.full(canvas_shape, pad_val, dtype=np.uint8)` and the four tiles
are assigned in order 0,1,2,3 (last write wins), each assignment casting
to `uint8`. -/
def canvasPixel (t0 t1 t2 t3 : Tile) (padVal : ℚ) (y x : ℕ) : ℕ :=
  if inTile t0 t1 t2 t3 3 y x then toUint8 (tilePixel t0 t1 t2 t3 3 y x)
  else if inTile t0 t1 t2 t3 2 y x then toUint8 (tilePixel t0 t1 t2 t3 2 y x)
  else if inTile t0 t1 t2 t3 1 y x then toUint8 (tilePixel t0 t1 t2 t3 1 y x)
  else if inTile t0 t1 t2 t3 0 y x then toUint8 (tilePixel t0 t1 t2 t3 0 y x)
  else toUint8 padVal

end MosaicPipeline

namespace MosaicPipeline

lemma applyOffset_eq (x1 y1 : ℤ) :
    applyOffset x1 y1 =
      fun b => ![b 0 + (x1 : ℚ), b 1 + (y1 : ℚ), b 2 + (x1 : ℚ), b 3 + (y1 : ℚ)] := by
  funext b j
  fin_cases j <;> simp [applyOffset]

lemma toUint8_lt_256 (x : ℚ) : toUint8 x < 256 := by
  have h1 : 0 ≤ truncToward0 x % 256 := Int.emod_nonneg _ (by norm_num)
  have h2 : truncToward0 x % 256 < 256 := Int.emod_lt_of_pos _ (by norm_num)
  unfold toUint8
  omega

/-- Concrete 1×1 test tiles used by witnesses. -/
def testTile (v : ℚ) (lab : ℤ) : Tile :=
  { height := 1, width := 1, channels := 3, img := fun _ _ => v,
    bboxes := [fun _ => 0], labels := [lab] }

/-- C1: For every mosaic composition of four tiles with pipeline-output
heights h0..h3 and widths w0..w3, the canvas height equals
max(h0,h1) + max(h2,h3) and the canvas width equals max(w0,w2) +
max(w1,w3), with join point yc = max(h0,h1), xc = max(w0,w2); this holds
for arbitrary (possibly unequal) tile shapes. -/
theorem canvas_shape_spec (t0 t1 t2 t3 : Tile) :
    canvasHeight t0 t1 t2 t3 = max t0.height t1.height + max t2.height t3.height
      ∧ canvasWidth t0 t1 t2 t3 = max t0.width t2.width + max t1.width t3.width
      ∧ yc t0 t1 = max t0.height t1.height
      ∧ xc t0 t2 = max t0.width t2.width := by
  refine ⟨rfl, rfl, rfl, rfl⟩

/-- C2: Each tile is placed at the fixed quadrant whose origin is:
tile 0 at (xc-w0, yc-h0), tile 1 at (xc, yc-h1), tile 2 at (xc-w2, yc),
tile 3 at (xc, yc); and every output bounding box equals the input box
with x-coordinates shifted by exactly x1 and y-coordinates shifted by
exactly y1 of its tile — exact equality, no rounding drift. -/
theorem tile_origins_and_exact_box_shift (t0 t1 t2 t3 : Tile) :
    origin t0 t1 t2 t3 0 = ((xc t0 t2 : ℤ) - t0.width, (yc t0 t1 : ℤ) - t0.height)
      ∧ origin t0 t1 t2 t3 1 = ((xc t0 t2 : ℤ), (yc t0 t1 : ℤ) - t1.height)
      ∧ origin t0 t1 t2 t3 2 = ((xc t0 t2 : ℤ) - t2.width, (yc t0 t1 : ℤ))
      ∧ origin t0 t1 t2 t3 3 = ((xc t0 t2 : ℤ), (yc t0 t1 : ℤ))
      ∧ outputBboxes t0 t1 t2 t3 =
          t0.bboxes.map (fun b =>
            ![b 0 + (((xc t0 t2 : ℤ) - t0.width : ℤ) : ℚ),
              b 1 + (((yc t0 t1 : ℤ) - t0.height : ℤ) : ℚ),
              b 2 + (((xc t0 t2 : ℤ) - t0.width : ℤ) : ℚ),
              b 3 + (((yc t0 t1 : ℤ) - t0.height : ℤ) : ℚ)])
          ++ t1.bboxes.map (fun b =>
            ![b 0 + ((xc t0 t2 : ℤ) : ℚ),
              b 1 + (((yc t0 t1 : ℤ) - t1.height : ℤ) : ℚ),
              b 2 + ((xc t0 t2 : ℤ) : ℚ),
              b 3 + (((yc t0 t1 : ℤ) - t1.height : ℤ) : ℚ)])
          ++ t2.bboxes.map (fun b =>
            ![b 0 + (((xc t0 t2 : ℤ) - t2.width : ℤ) : ℚ),
              b 1 + ((yc t0 t1 : ℤ) : ℚ),
              b 2 + (((xc t0 t2 : ℤ) - t2.width : ℤ) : ℚ),
              b 3 + ((yc t0 t1 : ℤ) : ℚ)])
          ++ t3.bboxes.map (fun b =>
            ![b 0 + ((xc t0 t2 : ℤ) : ℚ),
              b 1 + ((yc t0 t1 : ℤ) : ℚ),
              b 2 + ((xc t0 t2 : ℤ) : ℚ),
              b 3 + ((yc t0 t1 : ℤ) : ℚ)]) := by
  refine ⟨rfl, rfl, rfl, rfl, ?_⟩
  simp only [outputBboxes, applyOffset_eq, origin, tileRect]

/-- C9: When each input tile has equally many bounding boxes and labels,
the output sample's concatenated label count equals its concatenated
bounding-box count, and position-wise box-to-label correspondence is
preserved: boxes and labels are concatenated in the same fixed tile order
0,1,2,3 (so zipping the two output lists decomposes tile by tile). -/
theorem output_labels_match_bboxes (t0 t1 t2 t3 : Tile)
    (h0 : t0.bboxes.length = t0.labels.length)
    (h1 : t1.bboxes.length = t1.labels.length)
    (h2 : t2.bboxes.length = t2.labels.length)
    (h3 : t3.bboxes.length = t3.labels.length) :
    (outputBboxes t0 t1 t2 t3).length = (outputLabels t0 t1 t2 t3).length
      ∧ (outputBboxes t0 t1 t2 t3).zip (outputLabels t0 t1 t2 t3) =
          let o := origin t0 t1 t2 t3
          (t0.bboxes.map (applyOffset (o 0).1 (o 0).2)).zip t0.labels
            ++ (t1.bboxes.map (applyOffset (o 1).1 (o 1).2)).zip t1.labels
            ++ (t2.bboxes.map (applyOffset (o 2).1 (o 2).2)).zip t2.labels
            ++ (t3.bboxes.map (applyOffset (o 3).1 (o 3).2)).zip t3.labels := by
  constructor
  · simp [outputBboxes, outputLabels, h0, h1, h2, h3]
  · show (outputBboxes t0 t1 t2 t3).zip (outputLabels t0 t1 t2 t3) = _
    unfold outputBboxes outputLabels
    rw [List.append_assoc, List.append_assoc, List.append_assoc, List.append_assoc,
      List.zip_append (by simp [h0]), List.zip_append (by simp [h1]),
      List.zip_append (by simp [h2]), List.append_assoc, List.append_assoc]

/-- Witness for C9 at concrete one-box tiles. -/
theorem output_labels_match_bboxes_witness :
    (outputBboxes (testTile 1 10) (testTile 2 20) (testTile 3 30) (testTile 4 40)).length
      = (outputLabels (testTile 1 10) (testTile 2 20) (testTile 3 30) (testTile 4 40)).length :=
  (output_labels_match_bboxes (testTile 1 10) (testTile 2 20) (testTile 3 30) (testTile 4 40)
    rfl rfl rfl rfl).1

/-- C10: every pixel of the composed canvas is a `uint8` value (the canvas
is allocated as `np.uint8` filled with the pad value), and a tile image
value is converted — truncated toward zero and reduced mod 256 — to
`uint8` when placed, whatever the tile's original dtype: shown here for
the tile-3 region, which is written last. -/
theorem canvas_pixels_are_uint8 (t0 t1 t2 t3 : Tile) (padVal : ℚ) (y x : ℕ) :
    canvasPixel t0 t1 t2 t3 padVal y x < 256
      ∧ (inTile t0 t1 t2 t3 3 y x →
          canvasPixel t0 t1 t2 t3 padVal y x = toUint8 (tilePixel t0 t1 t2 t3 3 y x)) := by
  constructor
  · unfold canvasPixel
    split_ifs <;> exact toUint8_lt_256 _
  · intro h
    simp [canvasPixel, h]

/-- Witness for C10: four 1×1 tiles; the bottom-right canvas pixel (1,1)
lies in tile 3, whose image value 300.7 is truncated to 300 and wrapped to
300 mod 256 = 44 on placement. -/
theorem canvas_pixels_are_uint8_witness :
    canvasPixel (testTile 0 0) (testTile 0 0) (testTile 0 0) (testTile (3007/10) 0) 0 1 1 = 44
      ∧ canvasPixel (testTile 0 0) (testTile 0 0) (testTile 0 0) (testTile (3007/10) 0) 0 1 1 < 256 := by
  have h := canvas_pixels_are_uint8 (testTile 0 0) (testTile 0 0) (testTile 0 0)
    (testTile (3007/10) 0) 0 1 1
  refine ⟨?_, h.1⟩
  rw [h.2 (by constructor <;> simp [tileRect, xc, yc, testTile])]
  show toUint8 (tilePixel _ _ _ _ 3 1 1) = 44
  unfold tilePixel testTile toUint8 truncToward0
  norm_num
  rfl

end MosaicPipeline

namespace YOLOV4EMAHook

/-- One entry of `model.named_parameters(recurse=True)`: a parameter name,
its dtype's `is_floating_point` flag, and its current scalar value (one
representative scalar stands for the tensor; the hook treats every element
of a tensor identically). -/
structure EmaParam where
  name : String
  isFloating : Bool
  value : ℝ

/-- The hook's per-parameter state after `before_run`: the parameter name,
the registered buffer name, the dtype flag, the live parameter value
(`parameter.data`) and the shadow buffer value.  The strict pairing of a
parameter with its `ema_` buffer mirrors `param_ema_buffer`, which maps
each parameter name to exactly one buffer name. -/
structure EmaEntry where
  name : String
  bufName : String
  isFloating : Bool
  live : ℝ
  shadow : ℝ

/-- `buffer_name = f"ema_{name.replace('.', '_')}"`. -/
def bufferName (n : String) : String := "ema_" ++ n.replace "." "_"

/-- `before_run`: for every entry of `model.named_parameters` — with no
dtype test — register a buffer named `bufferName name` holding
`value.data.clone()`. -/
def beforeRun (params : List EmaParam) : List EmaEntry :=
  params.map fun p =>
    { name := p.name, bufName := bufferName p.name, isFloating := p.isFloating,
      live := p.value, shadow := p.value }

/-- The hook's constructor arguments: `momentum` (default 0.9999),
`interval` (default 2, asserted positive) and `warm_up` (default 2000). -/
structure EmaConfig where
  momentum : ℝ
  interval : ℕ
  warmUp : ℝ

/-- `momentum = self.momentum * (1 - math.exp(-runner.iter / self.warm_up))`.
Noncomputable because it is stated over exact reals (`Real.exp`). -/
noncomputable def emaMomentum (momentum warmUp : ℝ) (i : ℕ) : ℝ :=
  momentum * (1 - Real.exp (-(i : ℝ) / warmUp))

/-- The body of the `after_train_iter` loop for one parameter:
`if parameter.dtype.is_floating_point:
   buffer_parameter.mul_(momentum).add_(1 - momentum, parameter.data)`. -/
def updateEntry (m : ℝ) (e : EmaEntry) : EmaEntry :=
  if e.isFloating then { e with shadow := e.shadow * m + (1 - m) * e.live } else e

/-- `after_train_iter`: return unchanged unless
`(runner.iter + 1) % self.interval == 0`, else update every registered
entry.  `currentParams` is the model's parameter set at call time: the
code never consults it — it iterates `self.model_parameters` and
`self.model_buffers`, both captured at `before_run` — and its body has no
`assert`, no `raise` and no lookup that can fail, so the call always
returns `Except.ok` (Python exceptions are modelled as `Except.error`). -/
noncomputable def afterTrainIter (cfg : EmaConfig) (entries : List EmaEntry)
    (_currentParams : List EmaParam) (iter : ℕ) : Except String (List EmaEntry) :=
  if (iter + 1) % cfg.interval ≠ 0 then Except.ok entries
  else Except.ok (entries.map (updateEntry (emaMomentum cfg.momentum cfg.warmUp iter)))

/-- The body of the `_swap_ema_parameters` loop for one parameter:
`temp = value.data.clone(); value.data.copy_(ema_buffer.data);
ema_buffer.data.copy_(temp)` — a pure exchange of the live and shadow
values. -/
def swapEntry (e : EmaEntry) : EmaEntry :=
  { e with live := e.shadow, shadow := e.live }

/-- `_swap_ema_parameters`: exchange live and shadow for every registered
parameter. -/
def swapEmaParameters (entries : List EmaEntry) : List EmaEntry :=
  entries.map swapEntry

/-- A swap as invoked from `before_train_epoch` / `after_train_epoch`.
Like `afterTrainIter`, the code never consults the model's current
parameter set and contains no failure site, so it always returns
`Except.ok`. -/
def swapCall (entries : List EmaEntry) (_currentParams : List EmaParam) :
    Except String (List EmaEntry) :=
  Except.ok (swapEmaParameters entries)

end YOLOV4EMAHook

namespace AMPGradAccumulateOptimizerHook

/-- Observable optimizer interactions of the accumulation hook. -/
inductive HookEvent
  | zeroGrad
  | backward
  | step
deriving DecidableEq

/-- `before_train_iter`: `if runner.iter % self.accumulation == 0:`
zero the model and optimizer gradients. -/
def beforeTrainIter (accumulation iter : ℕ) : List HookEvent :=
  if iter % accumulation = 0 then [HookEvent.zeroGrad] else []

/-- `after_train_iter`: `scaled_loss.backward()` on every iteration; when
`(runner.iter + 1) % self.accumulation == 0`, clip and
`self.scaler.step(runner.optimizer)`. -/
def afterTrainIterEvents (accumulation iter : ℕ) : List HookEvent :=
  HookEvent.backward ::
    (if (iter + 1) % accumulation = 0 then [HookEvent.step] else [])

/-- All optimizer interactions of one training iteration. -/
def iterEvents (accumulation iter : ℕ) : List HookEvent :=
  beforeTrainIter accumulation iter ++ afterTrainIterEvents accumulation iter

/-- The interaction trace of iterations `0 .. n-1`. -/
def trace (accumulation n : ℕ) : List HookEvent :=
  (List.range n).flatMap (iterEvents accumulation)

end AMPGradAccumulateOptimizerHook

namespace YOLOV4EMAHook

/-- C3: For every parameter shadow store state, applying swap and then
swap again, with no update between the two calls, restores both the live
parameter value and the shadow buffer value of every parameter to their
exact original values: `_swap_ema_parameters` is an involution. -/
theorem swap_swap_restores (entries : List EmaEntry) :
    swapEmaParameters (swapEmaParameters entries) = entries := by
  have h : swapEntry ∘ swapEntry = id := funext fun e => rfl
  simp [swapEmaParameters, List.map_map, h]

/-- C4: the hook updates the shadow buffers after iteration `i` iff
`(i + 1) % interval = 0`; an update sets every floating-point entry's
shadow to `momentum_t * shadow + (1 - momentum_t) * live` with
`momentum_t = emaMomentum momentum warmUp i`, leaves non-floating entries
untouched, and on non-update iterations the whole state is unchanged. -/
theorem after_train_iter_spec (cfg : EmaConfig) (entries : List EmaEntry)
    (cur : List EmaParam) (i : ℕ) :
    ((i + 1) % cfg.interval ≠ 0 → afterTrainIter cfg entries cur i = Except.ok entries)
      ∧ ((i + 1) % cfg.interval = 0 →
          afterTrainIter cfg entries cur i =
            Except.ok (entries.map (updateEntry (emaMomentum cfg.momentum cfg.warmUp i))))
      ∧ (∀ e : EmaEntry, e.isFloating = true →
          updateEntry (emaMomentum cfg.momentum cfg.warmUp i) e =
            { e with shadow :=
                (emaMomentum cfg.momentum cfg.warmUp i * e.shadow
                  + (1 - emaMomentum cfg.momentum cfg.warmUp i) * e.live) })
      ∧ (∀ e : EmaEntry, e.isFloating = false →
          updateEntry (emaMomentum cfg.momentum cfg.warmUp i) e = e) := by
  refine ⟨fun h => by simp [afterTrainIter, h], fun h => by simp [afterTrainIter, h],
    fun e he => ?_, fun e he => by simp [updateEntry, he]⟩
  simp only [updateEntry, he, if_true]
  congr 1
  ring

/-- A concrete hook configuration: momentum 1/2, interval 1, warm-up 100. -/
noncomputable def emaCfgW : EmaConfig := ⟨1/2, 1, 100⟩

/-- A concrete floating-point shadow entry. -/
def emaEntryW : EmaEntry := ⟨"w", bufferName "w", true, 2, 4⟩

/-- Witness for C4 at iteration 0, interval 1: `(0+1) % 1 = 0`, so the
single floating entry is updated to the EMA of its live value. -/
theorem after_train_iter_spec_witness :
    afterTrainIter emaCfgW [emaEntryW] [] 0 =
      Except.ok [{ emaEntryW with shadow :=
        (emaMomentum emaCfgW.momentum emaCfgW.warmUp 0 * emaEntryW.shadow
          + (1 - emaMomentum emaCfgW.momentum emaCfgW.warmUp 0) * emaEntryW.live) }] := by
  have h := after_train_iter_spec emaCfgW [emaEntryW] [] 0
  rw [h.2.1 (by decide), List.map_singleton, h.2.2.1 emaEntryW rfl]

/-- C5: the effective EMA momentum
`momentum_t = momentum_base * (1 - exp(-i / warm_up))` equals 0 at
iteration 0, is strictly increasing in the iteration count, and tends to
`momentum_base` as the iteration count tends to infinity, for every
`momentum_base ∈ (0,1)` and positive `warm_up`. -/
theorem ema_momentum_warmup (m w : ℝ) (hm0 : 0 < m) (_hm1 : m < 1) (hw : 0 < w) :
    emaMomentum m w 0 = 0
      ∧ (∀ i j : ℕ, i < j → emaMomentum m w i < emaMomentum m w j)
      ∧ Filter.Tendsto (fun i : ℕ => emaMomentum m w i) Filter.atTop (nhds m) := by
  refine ⟨by simp [emaMomentum], fun i j hij => ?_, ?_⟩
  · unfold emaMomentum
    have h1 : ((i : ℝ)) / w < ((j : ℝ)) / w :=
      div_lt_div_of_pos_right (by exact_mod_cast hij) hw
    have h2 : Real.exp (-((j : ℝ) / w)) < Real.exp (-((i : ℝ) / w)) :=
      Real.exp_lt_exp.mpr (neg_lt_neg h1)
    have h3 : 1 - Real.exp (-((i : ℝ) / w)) < 1 - Real.exp (-((j : ℝ) / w)) :=
      sub_lt_sub_left h2 1
    rw [neg_div, neg_div]
    exact mul_lt_mul_of_pos_left h3 hm0
  · have h1 : Filter.Tendsto (fun i : ℕ => ((i : ℝ))) Filter.atTop Filter.atTop :=
      tendsto_natCast_atTop_atTop
    have h2 : Filter.Tendsto (fun i : ℕ => ((i : ℝ)) / w) Filter.atTop Filter.atTop :=
      h1.atTop_div_const hw
    have h3 : Filter.Tendsto (fun i : ℕ => -(((i : ℝ)) / w)) Filter.atTop Filter.atBot :=
      Filter.tendsto_neg_atTop_atBot.comp h2
    have h4 : Filter.Tendsto (fun i : ℕ => Real.exp (-(((i : ℝ)) / w)))
        Filter.atTop (nhds 0) := Real.tendsto_exp_atBot.comp h3
    have h5 := (h4.const_sub 1).const_mul m
    simpa [emaMomentum, neg_div] using h5

/-- Witness for C5 at `momentum_base = 1/2`, `warm_up = 1`. -/
theorem ema_momentum_warmup_witness :
    emaMomentum (1/2) 1 0 = 0 ∧ emaMomentum (1/2) 1 1 < emaMomentum (1/2) 1 2 := by
  have h := ema_momentum_warmup (1/2) 1 one_half_pos one_half_lt_one one_pos
  exact ⟨h.1, h.2.1 1 2 (by norm_num)⟩

/-- The `named_parameters` of a small model with one floating-point and
one integer parameter. -/
def testParams : List EmaParam :=
  [⟨"conv.weight", true, 2⟩, ⟨"bn.num_batches_tracked", false, 7⟩]

/-- C6 counterexample: `before_run` registers a shadow buffer for the
non-floating-point parameter too — the registration loop has no dtype
test — so "a shadow buffer is created iff the parameter is
floating-point" fails on a model with an integer parameter: both
parameters of `testParams` get a shadow entry, one of them non-floating. -/
theorem before_run_shadows_nonfloat_counterexample :
    (beforeRun testParams).length = 2
      ∧ ((beforeRun testParams).filter (fun e => !e.isFloating)).length = 1 :=
  ⟨rfl, rfl⟩

/-- C6 amended: at registration a shadow buffer is created for EVERY model
parameter, floating-point or not — exactly one entry per parameter, cloned
from the parameter's current value and named `ema_<name with dots
replaced>`; the dtype only controls later updates, not creation. -/
theorem before_run_registers_all_params (params : List EmaParam) :
    (beforeRun params).length = params.length
      ∧ ∀ p ∈ params,
          ({ name := p.name, bufName := bufferName p.name, isFloating := p.isFloating,
             live := p.value, shadow := p.value } : EmaEntry) ∈ beforeRun params := by
  refine ⟨by simp [beforeRun], fun p hp => ?_⟩
  exact List.mem_map_of_mem _ hp

/-- Witness for C6 amended at `testParams`. -/
theorem before_run_registers_all_params_witness :
    (beforeRun testParams).length = testParams.length
      ∧ ({ name := "bn.num_batches_tracked",
           bufName := bufferName "bn.num_batches_tracked", isFloating := false,
           live := 7, shadow := 7 } : EmaEntry) ∈ beforeRun testParams := by
  have h := before_run_registers_all_params testParams
  exact ⟨h.1, h.2 ⟨"bn.num_batches_tracked", false, 7⟩ (by simp [testParams])⟩

/-- A current parameter set differing from `testParams`: the integer
parameter disappeared, as after an architecture change. -/
def testParamsChanged : List EmaParam := [⟨"conv.weight", true, 2⟩]

/-- C7 counterexample: with the model's current parameter set differing
from the set captured at registration, both the update call and the swap
call return normally (`Except.ok`) instead of raising a fatal error — the
mismatch is silently ignored. -/
theorem mismatch_not_fatal_counterexample :
    testParamsChanged ≠ testParams
      ∧ afterTrainIter emaCfgW (beforeRun testParams) testParamsChanged 0 =
          Except.ok ((beforeRun testParams).map
            (updateEntry (emaMomentum emaCfgW.momentum emaCfgW.warmUp 0)))
      ∧ swapCall (beforeRun testParams) testParamsChanged =
          Except.ok (swapEmaParameters (beforeRun testParams)) := by
  refine ⟨fun h => ?_, by simp [afterTrainIter, emaCfgW], rfl⟩
  have := congrArg List.length h
  simp [testParams, testParamsChanged] at this

/-- C7 amended: a mismatch between the registered snapshot and the model's
current parameter set is never detected: `after_train_iter` and
`_swap_ema_parameters` never raise, and their result does not depend on
the model's current parameter set at all — they operate solely on the
snapshot captured at `before_run`. -/
theorem update_swap_ignore_current_params (cfg : EmaConfig) (entries : List EmaEntry)
    (cur cur2 : List EmaParam) (i : ℕ) :
    afterTrainIter cfg entries cur i = afterTrainIter cfg entries cur2 i
      ∧ (∃ out, afterTrainIter cfg entries cur i = Except.ok out)
      ∧ swapCall entries cur = swapCall entries cur2
      ∧ (∃ out, swapCall entries cur = Except.ok out) := by
  refine ⟨rfl, ?_, rfl, ⟨_, rfl⟩⟩
  unfold afterTrainIter
  split_ifs <;> exact ⟨_, rfl⟩

end YOLOV4EMAHook

namespace AMPGradAccumulateOptimizerHook

/-- C8: with accumulation window 4, across iterations 0–3 the hook zeroes
the gradients exactly once — at iteration 0, the start of the window — and
steps the optimizer exactly once — at iteration 3, where
`(iter + 1) % 4 = 0` — while the loss is backpropagated (gradients
accumulate) at all four iterations; zero-grad is suppressed on the inner
iterations 1–3. -/
theorem accumulation_window_four :
    (trace 4 4).count HookEvent.zeroGrad = 1
      ∧ (trace 4 4).count HookEvent.step = 1
      ∧ (trace 4 4).count HookEvent.backward = 4
      ∧ iterEvents 4 0 = [HookEvent.zeroGrad, HookEvent.backward]
      ∧ iterEvents 4 1 = [HookEvent.backward]
      ∧ iterEvents 4 2 = [HookEvent.backward]
      ∧ iterEvents 4 3 = [HookEvent.backward, HookEvent.step] := by
  decide

end AMPGradAccumulateOptimizerHook
